/-
Verification of the rts module-interception pipeline:
a shallow embedding of the resolver, hook-chain, transformer pipeline and
registration lifecycle, with theorems about the behaviours the design
documentation describes.
-/
import Mathlib

namespace RTS

/-! ## String primitives

JavaScript string operations used by the source, modelled over `List Char`.
`String.replace(pat, rep)` with a string pattern replaces only the FIRST
occurrence of `pat`; `String.startsWith(pre)` tests a literal prefix. -/

/-- First-occurrence replacement on character lists: scans left to right and
replaces the first occurrence of `pat` by `rep`, like JS `String.replace`
with a string pattern. An empty pattern matches at position 0. -/
def listReplaceFirst : List Char → List Char → List Char → List Char
  | [], pat, rep => if pat = [] then rep else []
  | c :: cs, pat, rep =>
    if pat.isPrefixOf (c :: cs) then rep ++ (c :: cs).drop pat.length
    else c :: listReplaceFirst cs pat rep

/-- JS `s.replace(pat, rep)` for a string pattern (first occurrence only). -/
def jsReplace (s pat rep : String) : String :=
  ⟨listReplaceFirst s.data pat.data rep.data⟩

/-- JS `s.startsWith(pre)`. -/
def jsStartsWith (s pre : String) : Bool :=
  pre.data.isPrefixOf s.data

/-! ## Filesystem and map models -/

/-- The filesystem, as the set (list) of paths that exist.
`fs.existsSync` is membership. -/
abbrev FileSystem := List String

/-- Model of `fs.existsSync`. -/
def existsSync (fsys : FileSystem) (p : String) : Bool :=
  fsys.contains p

/-- Insertion-ordered map, modelling a JS `Map`: an association list where
`set` on an existing key updates it in place (keeping its position) and on a
fresh key appends at the end, matching `Map`'s iteration order. -/
def mapSet (m : List (String × α)) (k : String) (v : α) : List (String × α) :=
  if m.any (fun p => p.1 = k) then
    m.map (fun p => if p.1 = k then (k, v) else p)
  else m ++ [(k, v)]

/-- `Map.get`: value of the first (only) entry with the key. -/
def mapGet (m : List (String × α)) (k : String) : Option α :=
  (m.find? (fun p => p.1 = k)).map (fun p => p.2)

/-- Alias table `ModuleResolver.aliases : Map<string, string[]>` in
insertion order. -/
abbrev AliasTable := List (String × List String)

/-- Resolution cache `ModuleResolver.cache : Map<string, string>`. -/
abbrev Cache := List (String × String)

/-! ## ModuleResolver.resolve (src/resolver/index.ts, lines 175-200)

The source iterates `for (const [alias, target] of this.aliases)` and inside
runs `target.forEach((t) => { url = specifier.replace(alias, t);
if (fs.existsSync(url)) { this.cache.set(cacheKey, url); return { url }; } })`.
The `return` exits only the `forEach` callback, so the callback is equivalent
to: assign `url`, and if the path exists also write the cache; iteration
continues over all candidates and all further aliases. -/

/-- The cache key `` `${specifier}:${context?.parentURL ?? ""}` ``. -/
def cacheKey (specifier : String) (parentURL : Option String) : String :=
  specifier ++ ":" ++ parentURL.getD ""

/-- JS truthiness of the `url` variable (`undefined` and `""` are falsy). -/
def urlTruthy : Option String → Bool
  | none => false
  | some s => !(s = "")

/-- One `forEach` iteration over a candidate `t`: `url` is unconditionally
reassigned to the substituted path; the cache is written when that path
exists. The callback-local `return` has no further effect. -/
def candidateStep (fsys : FileSystem) (key specifier pre : String)
    (acc : Option String × Cache) (t : String) : Option String × Cache :=
  let u := jsReplace specifier pre t
  (some u, if existsSync fsys u then mapSet acc.2 key u else acc.2)

/-- The `for`-loop body for one alias entry: run the `forEach` when the
specifier starts with the alias, otherwise leave state unchanged. -/
def aliasStep (fsys : FileSystem) (key specifier : String)
    (acc : Option String × Cache) (entry : String × List String) :
    Option String × Cache :=
  if jsStartsWith specifier entry.1 then
    entry.2.foldl (candidateStep fsys key specifier entry.1) acc
  else acc

/-- `ModuleResolver.resolve`: consult the cache, and when the cached value is
falsy scan every alias entry as above. Returns the final `url` together with
the updated cache (the method's side effect on `this.cache`). -/
def resolve (fsys : FileSystem) (aliases : AliasTable) (cache : Cache)
    (specifier : String) (parentURL : Option String) :
    Option String × Cache :=
  let key := cacheKey specifier parentURL
  let url0 := mapGet cache key
  if urlTruthy url0 then (url0, cache)
  else aliases.foldl (aliasStep fsys key specifier) (url0, cache)

/-! Concrete scenario used against claims C1 and C3: one alias whose first
candidate exists on disk and whose second does not. -/

/-- Filesystem on which `./real/x.js` exists and `./missing/x.js` does not. -/
def fsReal : FileSystem := ["./real/x.js"]

/-- Alias table `{"@a": ["./real", "./missing"]}`. -/
def aliasesRealMissing : AliasTable := [("@a", ["./real", "./missing"])]

/-! ## Hook chain (src/register/index.ts)

`registerHooksPolyfill` keeps a mutable `hooks` array; `register(hook)` does
`hooks.unshift(hook)` and hands back a `deregister` doing
`hooks.splice(hooks.indexOf(hook), 1)`. Dispatch recurses over an index:
`hooks[index].resolve ? hooks[index].resolve(s, c, next(index+1)) :
resolve(s, c, index+1)`, and past the end returns `{ url: specifier }`; the
patched `_resolveFilename` then feeds that url to the captured original. -/

/-- Result of a resolve hook (`{ url }`). -/
structure ResolveResult where
  url : String
deriving DecidableEq

/-- Resolution context (`{ parentURL?: string }`). -/
structure HookContext where
  parentURL : Option String
deriving DecidableEq

/-- Type of a resolve hook: specifier, context and the `next` continuation. -/
abbrev ResolveHook :=
  String → HookContext → (String → HookContext → ResolveResult) → ResolveResult

/-- A hook-set (`RegisterHooksOptions`): the resolve callback is optional. -/
structure HookSet where
  resolve : Option ResolveHook

/-- The chained `resolve` of `registerHooksPolyfill`: recursion over the list
mirrors the source's recursion over `index` (head = index 0 = most recently
registered; the tail plays `index + 1`). Past the end it returns
`{ url: specifier }`. -/
def chainResolve : List HookSet → String → HookContext → ResolveResult
  | [], specifier, _ => ⟨specifier⟩
  | h :: rest, specifier, ctx =>
    match h.resolve with
    | some f => f specifier ctx (fun s c => chainResolve rest s c)
    | none => chainResolve rest specifier ctx

/-- `hooks.unshift(hook)`: registration prepends. -/
def hookRegister (hooks : List HookSet) (h : HookSet) : List HookSet :=
  h :: hooks

/-- The patched `Module._resolveFilename`: run the chain, then call the
original resolver (captured before interception) on the resulting url. -/
def patchedResolveFilename (orig : String → HookContext → String)
    (hooks : List HookSet) (specifier : String) (ctx : HookContext) : String :=
  orig (chainResolve hooks specifier ctx).url ctx

/-- A resolve hook that always defers: `(s, c, next) => next(s, c)`. -/
def passThroughResolve : ResolveHook :=
  fun s c next => next s c

/-- Concrete hook function for witnesses: answers `/intercepted.js` for the
specifier `"hit"` and defers otherwise. -/
def hookBFn : ResolveHook :=
  fun s c next => if s = "hit" then ⟨"/intercepted.js"⟩ else next s c

/-- Hook-set B built from `hookBFn`. -/
def hookB : HookSet := ⟨some hookBFn⟩

/-- Hook-set A that always calls `next`. -/
def hookA : HookSet := ⟨some passThroughResolve⟩

/-- A hook-set with no resolve function. -/
def hookNone : HookSet := ⟨none⟩

/-- A concrete original host resolver for witnesses. -/
def origHost : String → HookContext → String :=
  fun s _ => "host:" ++ s

/-! ## Deregistration (src/register/index.ts, lines 92-100)

`deregister: () => { hooks.splice(hooks.indexOf(hook), 1); }`. JS `indexOf`
yields `-1` when the element is absent, and `splice` normalizes a negative
start as `max(length + start, 0)`, so `splice(-1, 1)` removes the LAST
element of a non-empty array. Hook-sets are identified by `indexOf`'s
reference identity, modelled as numeric ids. -/

/-- JS `Array.prototype.indexOf`: first occurrence or `-1`. -/
def jsIndexOf (l : List Nat) (x : Nat) : Int :=
  match l.findIdx? (fun y => y = x) with
  | some i => (i : Int)
  | none => -1

/-- JS `splice(start, 1)`: a negative start counts from the end
(`max(length + start, 0)`); one element at the normalized index is removed
(none when the index is past the end). -/
def jsSpliceOne (l : List Nat) (start : Int) : List Nat :=
  let s : Nat :=
    if start < 0 then ((l.length : Int) + start).toNat
    else min start.toNat l.length
  l.take s ++ l.drop (s + 1)

/-- `register` on the polyfill's id-level hook list: `unshift`. -/
def hookRegisterId (hooks : List Nat) (h : Nat) : List Nat :=
  h :: hooks

/-- The polyfill's `deregister`: `hooks.splice(hooks.indexOf(hook), 1)`. -/
def hookDeregister (hooks : List Nat) (h : Nat) : List Nat :=
  jsSpliceOne hooks (jsIndexOf hooks h)

/-! ## Transformer pipeline (src/resolver/index.ts, lines 250-260) -/

/-- A transformer hook: handled extensions and the transform function
`(code, src) => code`. -/
structure TransformerHook where
  exts : List String
  hook : String → String → String

/-- The last path segment (after the final `/`). -/
def lastSegment (l : List Char) : List Char :=
  l.foldl (fun acc c => if c = '/' then [] else acc ++ [c]) []

/-- Model of Node `path.extname` for ordinary file names: the suffix of the
last path segment from its last `.` on; empty when the segment has no `.` or
its only `.` is the leading character (hidden files). -/
def extname (p : String) : String :=
  let b := lastSegment p.data
  match b.reverse.findIdx? (fun c => c = '.') with
  | none => ""
  | some j =>
    let i := b.length - 1 - j
    if i = 0 then "" else ⟨b.drop i⟩

/-- `t.exts.includes(path.extname(filename))`. -/
def extMatches (ext : String) (t : TransformerHook) : Bool :=
  t.exts.contains ext

/-- `ModuleResolver.transformCode`: filter the registered transformers by the
file's extension; return `""` when none match, otherwise `reduce` the
matching hooks over the code in registration order. -/
def transformCode (transformers : List TransformerHook)
    (code filename : String) : String :=
  let ts := transformers.filter (extMatches (extname filename))
  if ts.length = 0 then ""
  else ts.foldl (fun c t => t.hook c filename) code

/-- `ModuleResolver.addTransformer`: `this.transformers.push(transformer)`. -/
def addTransformer (l : List TransformerHook) (t : TransformerHook) :
    List TransformerHook :=
  l ++ [t]

/-- `ModuleResolver.load`: transform the file's content; a truthy (non-empty)
result is returned as commonjs code, otherwise `null`. `fileContent` stands
for `fs.readFileSync(url, "utf-8")`. -/
def load (transformers : List TransformerHook) (fileContent url : String) :
    Option (String × String) :=
  let code := transformCode transformers fileContent url
  if code = "" then none else some ("commonjs", code)

/-- Transformer used in witnesses: tags the code with `|T1`. -/
def tApp1 : TransformerHook := ⟨[".ts"], fun c _ => c ++ "|T1"⟩

/-- Transformer used in witnesses: tags the code with `|T2`. -/
def tApp2 : TransformerHook := ⟨[".ts"], fun c _ => c ++ "|T2"⟩

/-- A transformer for `.ts` that transforms every source to empty text. -/
def tEmpty : TransformerHook := ⟨[".ts"], fun _ _ => ""⟩

/-! ## Throwing transformers and TSHook

JS transform functions may throw; a fallible hook is `Except`-valued, and
`reduce` then propagates the first uncaught exception. The built-in `TSHook`
(src/transformer/ts.ts) wraps `swc.transformSync` in `try`/`catch`: on a
thrown error it warns and returns the ORIGINAL code. -/

/-- A transformer whose function may throw. -/
structure TransformerHookE where
  exts : List String
  hook : String → String → Except String String

/-- `transformCode` when hooks may throw: the `reduce` applies each matching
hook in turn and an uncaught exception aborts the fold and propagates. -/
def transformCodeE (transformers : List TransformerHookE)
    (code filename : String) : Except String String :=
  let ts := transformers.filter (fun t => t.exts.contains (extname filename))
  if ts.length = 0 then Except.ok ""
  else ts.foldlM (fun c t => t.hook c filename) code

/-- Result of `swc.transformSync`: transformed code, or a thrown error. -/
abbrev SwcResult := Except String String

/-- `TSHook.hook`: call SWC inside `try`; on success return the transformed
code, on a thrown error `console.warn` and return the original code.
`swc` abstracts `transformSync` applied with the fixed config. -/
def tsHookFn (swc : String → SwcResult) (code : String) : String :=
  match swc code with
  | Except.ok transformed => transformed
  | Except.error _ => code

/-- The `TSHook` transformer: extensions `.ts`/`.tsx`, function `tsHookFn`. -/
def TSHook (swc : String → SwcResult) : TransformerHook :=
  ⟨[".ts", ".tsx"], fun code _ => tsHookFn swc code⟩

/-- An SWC that throws on every input, for counterexamples. -/
def swcAlwaysThrows : String → SwcResult :=
  fun _ => Except.error "SyntaxError"

/-- A throwing transformer for `.ts`, for witnesses. -/
def tThrow : TransformerHookE := ⟨[".ts"], fun _ _ => Except.error "boom"⟩

/-! ## Registration lifecycle (src/resolver/index.ts, lines 113-163)

In the polyfill branch, `register()` captures the current
`Module._resolveFilename` as `origResolve`, overwrites the slot with a
closure wrapping it, and stores in `this.revertRegister` a `deregister` that
writes `origResolve` back. `revert()` is `this.revertRegister?.deregister()`
and does not clear `revertRegister`. -/

/-- The process-wide `Module._resolveFilename` slot, tracked structurally:
the pre-interception original, or a patch wrapping whatever was in the slot
when a `register()` ran. -/
inductive ResolveEntry where
  | original
  | patched (inner : ResolveEntry)
deriving DecidableEq

/-- Number of monkey-patch layers installed over the original. -/
def patchCount : ResolveEntry → Nat
  | .original => 0
  | .patched inner => patchCount inner + 1

/-- Process slot plus the instance's `revertRegister` closure (which captures
the `origResolve` value it will restore). -/
structure MRState where
  entry : ResolveEntry
  revertRegister : Option ResolveEntry
deriving DecidableEq

/-- The state before any registration. -/
def mrInit : MRState := ⟨ResolveEntry.original, none⟩

/-- `ModuleResolver.register` (polyfill branch): capture the slot, patch over
it, store the deregister closure. -/
def mrRegister (s : MRState) : MRState :=
  { entry := ResolveEntry.patched s.entry, revertRegister := some s.entry }

/-- `ModuleResolver.revert`: restore the captured `origResolve` when a
registration happened, otherwise do nothing. -/
def mrRevert (s : MRState) : MRState :=
  match s.revertRegister with
  | none => s
  | some orig => { s with entry := orig }

/-! `registerHooksPolyfill` (src/register/index.ts), by contrast, patches the
slot ONCE when the polyfill is constructed — the module-level
`register = major >= 24 ? Module.registerHooks : registerHooksPolyfill()`
runs it a single time at module evaluation — and later `register(hook)` calls
only `unshift` into its hook list. -/

/-- State of the constructed `registerHooksPolyfill`: hook ids plus the slot. -/
structure PolyfillState where
  hooks : List Nat
  entry : ResolveEntry
deriving DecidableEq

/-- Constructing the polyfill (module evaluation): the one monkey-patch. -/
def polyfillInit : PolyfillState :=
  ⟨[], ResolveEntry.patched ResolveEntry.original⟩

/-- A `register(hook)` call on the polyfill: `hooks.unshift(hook)`; the
process slot is untouched. -/
def polyfillRegister (s : PolyfillState) (h : Nat) : PolyfillState :=
  { s with hooks := h :: s.hooks }

/-! ## registerRTS facade (src/index.ts)

One module-level `ModuleResolver` instance is shared by every `registerRTS`
call; its configuration is threaded here as explicit state. -/

/-- A `string | string[]` alias target, as accepted by `setAlias`. -/
inductive AliasTarget where
  | str (s : String)
  | arr (l : List String)

/-- `ModuleResolver.setAlias`: for each entry, normalize a bare string to a
one-element array and `Map.set` it. -/
def setAlias (aliases : AliasTable) (m : List (String × AliasTarget)) :
    AliasTable :=
  m.foldl (fun a kv =>
    match kv.2 with
    | AliasTarget.str s => mapSet a kv.1 [s]
    | AliasTarget.arr l => mapSet a kv.1 l) aliases

/-- The shared resolver's state: configuration plus the registration slot. -/
structure ResolverState where
  cache : Cache
  aliases : AliasTable
  transformers : List TransformerHook
  reg : MRState

/-- Options accepted by `registerRTS` (`alias` and `transformers` fields). -/
structure RTSOptions where
  aliasMap : Option (List (String × AliasTarget))
  transformers : Option (List TransformerHook)

/-- `registerRTS(options)`: `setAlias` when `options.alias` is given, push
each custom transformer when `options.transformers` is given, then
`resolver.register()`. -/
def registerRTS (s : ResolverState) (o : RTSOptions) : ResolverState :=
  let s1 :=
    match o.aliasMap with
    | some m => { s with aliases := setAlias s.aliases m }
    | none => s
  let s2 :=
    match o.transformers with
    | some ts => { s1 with transformers := ts.foldl addTransformer s1.transformers }
    | none => s1
  { s2 with reg := mrRegister s2.reg }

/-- The cleanup closure returned by `registerRTS`: `resolver.revert()` only. -/
def rtsCleanup (s : ResolverState) : ResolverState :=
  { s with reg := mrRevert s.reg }

/-- A fresh resolver state, for witnesses. -/
def emptyResolverState : ResolverState := ⟨[], [], [], mrInit⟩

/-! ## Helper lemmas -/

/-- A chain all of whose hook-sets defer (no resolve function, or a resolve
that immediately calls `next`) resolves every request to its own specifier. -/
theorem chainResolve_all_defer (hs : List HookSet) (s : String) (c : HookContext)
    (h : ∀ hk ∈ hs, hk.resolve = none ∨ hk.resolve = some passThroughResolve) :
    chainResolve hs s c = ⟨s⟩ := by
  induction hs generalizing s c with
  | nil => rfl
  | cons hd tl ih =>
    have htl : ∀ hk ∈ tl, hk.resolve = none ∨ hk.resolve = some passThroughResolve := by
      intro hk hm
      exact h hk (List.mem_cons_of_mem hd hm)
    rcases h hd (List.mem_cons_self hd tl) with h1 | h1
    · simp [chainResolve, h1]
      exact ih s c htl
    · simp [chainResolve, h1, passThroughResolve]
      exact ih s c htl

/-- In-place update of the entry at key `k` leaves `find?` for another key
unchanged. -/
theorem find?_mapSet_update_ne (m : List (String × α)) (k k2 : String) (v : α)
    (h : k ≠ k2) :
    (m.map (fun p => if p.1 = k then (k, v) else p)).find? (fun p => p.1 = k2)
      = m.find? (fun p => p.1 = k2) := by
  induction m with
  | nil => rfl
  | cons hd tl ih =>
    by_cases hk : hd.1 = k
    · have h2 : ¬ hd.1 = k2 := by rw [hk]; exact h
      simp [List.find?, hk, h2, h, ih]
    · by_cases h2 : hd.1 = k2 <;> simp [List.find?, hk, h2, Ne.symm h, ih]

/-- Appending an entry with key `k` leaves `find?` for another key unchanged. -/
theorem find?_append_single_ne (m : List (String × α)) (k k2 : String) (v : α)
    (h : k ≠ k2) :
    (m ++ [(k, v)]).find? (fun p => p.1 = k2) = m.find? (fun p => p.1 = k2) := by
  induction m with
  | nil => simp [List.find?, h]
  | cons hd tl ih =>
    by_cases h2 : hd.1 = k2 <;> simp [List.find?, h2, ih]

/-- `Map.set` on one key leaves lookups of every other key unchanged. -/
theorem mapGet_mapSet_ne (m : List (String × α)) (k k2 : String) (v : α)
    (h : k ≠ k2) : mapGet (mapSet m k v) k2 = mapGet m k2 := by
  unfold mapGet mapSet
  by_cases hmem : m.any (fun p => p.1 = k) <;>
    simp only [hmem, if_true, if_false, Bool.false_eq_true]
  · rw [find?_mapSet_update_ne m k k2 v h]
  · rw [find?_append_single_ne m k k2 v h]

/-- `setAlias` with a map that never mentions key `k` leaves the lookup of
`k` unchanged. -/
theorem setAlias_mapGet_notin (a : AliasTable) (m : List (String × AliasTarget))
    (k : String) (h : ∀ p ∈ m, p.1 ≠ k) :
    mapGet (setAlias a m) k = mapGet a k := by
  induction m generalizing a with
  | nil => rfl
  | cons hd tl ih =>
    have hhd : hd.1 ≠ k := h hd (List.mem_cons_self hd tl)
    have htl : ∀ p ∈ tl, p.1 ≠ k := fun p hp => h p (List.mem_cons_of_mem hd hp)
    cases hd with
    | mk k1 tgt =>
      cases tgt with
      | str s =>
        simpa [setAlias] using
          (ih (mapSet a k1 [s]) htl).trans (mapGet_mapSet_ne a k1 k [s] hhd)
      | arr l =>
        simpa [setAlias] using
          (ih (mapSet a k1 l) htl).trans (mapGet_mapSet_ne a k1 k l hhd)

/-- Folding `push` over a list of transformers appends it. -/
theorem foldl_addTransformer_append (ts : List TransformerHook)
    (cur : List TransformerHook) :
    ts.foldl addTransformer cur = cur ++ ts := by
  induction ts generalizing cur with
  | nil => simp
  | cons hd tl ih => simp [addTransformer, ih]

/-! ## Claim theorems -/

/-- Claim C1. The claim says `resolve` returns the first candidate (in list
order) whose substituted path exists, and no URL when no candidate exists.
The code does not: the early `return` sits inside a `forEach` callback, so
on `{"@a": ["./real", "./missing"]}` with only `./real/x.js` on disk,
resolving `@a/x.js` returns the LAST candidate's substitution
`./missing/x.js` — a path that does not exist — even though the first
candidate `./real/x.js` does exist. -/
theorem resolve_last_candidate_bug :
    (resolve fsReal aliasesRealMissing [] "@a/x.js" none).1 = some "./missing/x.js"
    ∧ existsSync fsReal "./missing/x.js" = false
    ∧ jsStartsWith "@a/x.js" "@a" = true
    ∧ jsReplace "@a/x.js" "@a" "./real" = "./real/x.js"
    ∧ existsSync fsReal "./real/x.js" = true := by
  decide

/-- Claim C2. LIFO continuation-passing dispatch of the polyfill hook chain:
the most recently registered hook-set (`unshift` puts it at index 0) is
offered the request first; its `next` continuation dispatches to the rest of
the chain; a hook-set without a resolve function is skipped; and when every
registered hook defers, the patched entry point hands the request to the
original host resolver captured before interception. -/
theorem chain_lifo_dispatch (prior : List HookSet) (b : HookSet) (f : ResolveHook)
    (s : String) (c : HookContext) (orig : String → HookContext → String)
    (hb : b.resolve = some f) :
    chainResolve (hookRegister prior b) s c
      = f s c (fun s2 c2 => chainResolve prior s2 c2)
    ∧ (∀ b2 : HookSet, b2.resolve = none →
        chainResolve (hookRegister prior b2) s c = chainResolve prior s c)
    ∧ chainResolve [] s c = ⟨s⟩
    ∧ (∀ hs : List HookSet,
        (∀ hk ∈ hs, hk.resolve = none ∨ hk.resolve = some passThroughResolve) →
        patchedResolveFilename orig hs s c = orig s c) := by
  refine ⟨?_, ?_, rfl, ?_⟩
  · simp [chainResolve, hookRegister, hb]
  · intro b2 hb2
    simp [chainResolve, hookRegister, hb2]
  · intro hs hdef
    simp [patchedResolveFilename, chainResolve_all_defer hs s c hdef]

/-- Witness for C2: hook B (registered after hook A) is consulted first and
intercepts the request, and a chain of deferring hooks falls through to the
original host resolver. -/
theorem chain_lifo_dispatch_witness :
    chainResolve (hookRegister [hookA] hookB) "hit" ⟨none⟩
      = hookBFn "hit" ⟨none⟩ (fun s2 c2 => chainResolve [hookA] s2 c2)
    ∧ patchedResolveFilename origHost [hookA, hookNone] "m" ⟨none⟩
      = origHost "m" ⟨none⟩ :=
  ⟨(chain_lifo_dispatch [hookA] hookB hookBFn "hit" ⟨none⟩ origHost rfl).1,
   (chain_lifo_dispatch [hookA] hookB hookBFn "m" ⟨none⟩ origHost rfl).2.2.2
     [hookA, hookNone]
     (by
       intro hk hm
       rcases List.mem_cons.mp hm with h1 | h1
       · right; rw [h1]; rfl
       · rcases List.mem_cons.mp h1 with h2 | h2
         · left; rw [h2]; rfl
         · cases h2)⟩

/-- Claim C3. The claim says a second `resolve` call on the same
`(specifier, context)` pair returns the identical URL the first call
returned. The code does not: on `{"@a": ["./real", "./missing"]}` with only
`./real/x.js` on disk, the first call returns `./missing/x.js` while caching
`./real/x.js`, so the second call returns a different URL. -/
theorem resolve_cache_inconsistency :
    (resolve fsReal aliasesRealMissing [] "@a/x.js" none).1 = some "./missing/x.js"
    ∧ (resolve fsReal aliasesRealMissing
        (resolve fsReal aliasesRealMissing [] "@a/x.js" none).2 "@a/x.js" none).1
        = some "./real/x.js"
    ∧ (some "./missing/x.js" : Option String) ≠ some "./real/x.js" := by
  decide

/-- Claim C4. Two transformers registered (pushed) in order T1, T2 for the
same extension are folded over the source in registration order: the result
is `T2(T1(x))`, each transformer consuming the previous one's output. -/
theorem transform_fold_registration_order (T1 T2 : TransformerHook) (x f : String)
    (h1 : extMatches (extname f) T1 = true) (h2 : extMatches (extname f) T2 = true) :
    transformCode (addTransformer (addTransformer [] T1) T2) x f
      = T2.hook (T1.hook x f) f := by
  simp [transformCode, addTransformer, List.filter, h1, h2]

/-- Witness for C4 on two concrete `.ts` transformers. -/
theorem transform_fold_registration_order_witness :
    transformCode (addTransformer (addTransformer [] tApp1) tApp2) "x" "a.ts"
      = tApp2.hook (tApp1.hook "x" "a.ts") "a.ts" :=
  transform_fold_registration_order tApp1 tApp2 "x" "a.ts" (by decide) (by decide)

/-- Claim C5. The claim says `deregister()` is idempotent and removing an
absent entry is a no-op. The code does `hooks.splice(hooks.indexOf(hook), 1)`;
with hooks 0 then 1 registered, deregistering hook 1 twice first removes 1
and then — `indexOf` yielding `-1`, `splice(-1, 1)` removing the last
element — removes hook 0 as well, so the state after the second call differs
from the state after the first. -/
theorem deregister_absent_removes_last :
    hookDeregister (hookRegisterId (hookRegisterId [] 0) 1) 1 = [0]
    ∧ hookDeregister (hookDeregister (hookRegisterId (hookRegisterId [] 0) 1) 1) 1
        = ([] : List Nat)
    ∧ ([0] : List Nat) ≠ [] := by
  decide

/-- Counterexample to C6. The claim says the system never silently returns
the original untransformed source. But `TSHook` catches the SWC error
itself: on a source SWC rejects, the pipeline result IS the original
source text. -/
theorem tsHook_returns_original_on_error :
    transformCode [TSHook swcAlwaysThrows] "const x: = 1;" "bad.ts" = "const x: = 1;"
    ∧ tsHookFn swcAlwaysThrows "const x: = 1;" = "const x: = 1;" := by
  decide

/-- Claim C6 as amended. The transformation pipeline itself does not catch:
a matching transform function that throws aborts the fold and the exception
propagates to the caller. The built-in `TSHook`, however, catches SWC
failures internally, warns, and returns the original untransformed source. -/
theorem transform_throw_propagation (T : TransformerHookE) (code f e1 e2 : String)
    (swc : String → SwcResult) (src : String)
    (hm : T.exts.contains (extname f) = true)
    (hthrow : T.hook code f = Except.error e1)
    (hswc : swc src = Except.error e2) :
    transformCodeE [T] code f = Except.error e1 ∧ tsHookFn swc src = src := by
  constructor
  · have hm2 : extname f ∈ T.exts := by simpa using hm
    simp [transformCodeE, hm2, List.foldlM_cons, List.foldlM_nil, hthrow, Except.bind]
  · simp [tsHookFn, hswc]

/-- Witness for the amended C6 on a concrete throwing transformer. -/
theorem transform_throw_propagation_witness :
    transformCodeE [tThrow] "x" "a.ts" = Except.error "boom"
    ∧ tsHookFn swcAlwaysThrows "x" = "x" :=
  transform_throw_propagation tThrow "x" "a.ts" "boom" "SyntaxError"
    swcAlwaysThrows "x" (by decide) rfl rfl

/-- Counterexample to C7. The claim says the "no transformation applicable"
sentinel is distinct from "transformed to empty text". It is not: a matching
transformer that produces empty text yields exactly the sentinel `""`, and
the caller's `load` treats the two cases identically (pass-through). -/
theorem transform_sentinel_collision :
    transformCode [tEmpty] "x" "a.ts" = transformCode [] "x" "file.md"
    ∧ transformCode [] "x" "file.md" = ""
    ∧ load [tEmpty] "x" "a.ts" = load [] "x" "file.md" := by
  decide

/-- Claim C7 as amended. When no registered transformer matches the file's
extension, `transformCode` returns the empty string, and `load` passes the
original bytes through (returns null); but the sentinel is the empty string
itself, so `load` passes through exactly when the transform result is empty,
including when a matching transformer produced empty output. -/
theorem transform_no_match_empty (ts : List TransformerHook) (code f : String)
    (h : ts.filter (extMatches (extname f)) = []) :
    transformCode ts code f = ""
    ∧ ∀ (ts2 : List TransformerHook) (c2 f2 : String),
        (load ts2 c2 f2 = none ↔ transformCode ts2 c2 f2 = "") := by
  constructor
  · simp [transformCode, h]
  · intro ts2 c2 f2
    by_cases hc : transformCode ts2 c2 f2 = "" <;> simp [load, hc]

/-- Witness for the amended C7: a `.ts`-only pipeline matches nothing for a
`.md` file. -/
theorem transform_no_match_empty_witness :
    transformCode [tApp1] "x" "file.md" = ""
    ∧ (load [tEmpty] "x" "a.ts" = none ↔ transformCode [tEmpty] "x" "a.ts" = "") :=
  ⟨(transform_no_match_empty [tApp1] "x" "file.md" rfl).1,
   (transform_no_match_empty [tApp1] "x" "file.md" rfl).2 [tEmpty] "x" "a.ts"⟩

/-- Counterexample to C8. The claim says the monkey-patch is installed
exactly once per process even when `register()` is called multiple times.
`ModuleResolver.register`'s polyfill branch patches the entry point on every
call: after two calls two patch layers are installed, not one. -/
theorem mr_register_double_patch :
    patchCount (mrRegister (mrRegister mrInit)).entry = 2
    ∧ patchCount (mrRegister mrInit).entry = 1 := by
  decide

/-- Claim C8 as amended. The `registerHooksPolyfill` of src/register/index.ts
is singleton-guarded: its single monkey-patch is installed when the module is
evaluated, and every subsequent `register(hook)` call only unshifts into the
hook chain, leaving exactly one patch installed. `ModuleResolver.register`'s
polyfill branch, by contrast, installs one new patch per call. -/
theorem polyfill_singleton_guard (hs : List Nat) (n : Nat) :
    (hs.foldl polyfillRegister polyfillInit).entry
      = ResolveEntry.patched ResolveEntry.original
    ∧ patchCount (hs.foldl polyfillRegister polyfillInit).entry = 1
    ∧ patchCount (Nat.iterate mrRegister n mrInit).entry = n := by
  have hentry : ∀ (l : List Nat) (s : PolyfillState),
      (l.foldl polyfillRegister s).entry = s.entry := by
    intro l
    induction l with
    | nil => intro s; rfl
    | cons a t ih => intro s; simpa [polyfillRegister] using ih _
  refine ⟨hentry hs polyfillInit, ?_, ?_⟩
  · rw [hentry hs polyfillInit]; rfl
  · induction n with
    | zero => rfl
    | succ k ih => rw [Function.iterate_succ_apply']; simp [mrRegister, patchCount, ih]

/-- Witness for the amended C8: two polyfill registrations leave the single
construction-time patch; two facade registrations leave two patches. -/
theorem polyfill_singleton_guard_witness :
    ([5, 7].foldl polyfillRegister polyfillInit).entry
      = ResolveEntry.patched ResolveEntry.original
    ∧ patchCount (Nat.iterate mrRegister 2 mrInit).entry = 2 :=
  ⟨(polyfill_singleton_guard [5, 7] 2).1, (polyfill_singleton_guard [5, 7] 2).2.2⟩

/-- Claim C9. On the `ModuleResolver` facade, `revert()` is idempotent
(every call after the first leaves the state unchanged, and reverting an
unregistered resolver is a no-op), `register()` is not idempotent (a second
call double-installs), and the cycle register → revert → register reproduces
exactly the state of a fresh registration, with no residual stale state. -/
theorem mr_lifecycle (s : MRState) :
    mrRevert (mrRevert s) = mrRevert s
    ∧ mrRegister (mrRegister mrInit) ≠ mrRegister mrInit
    ∧ (mrRevert (mrRegister mrInit)).entry = mrInit.entry
    ∧ mrRegister (mrRevert (mrRegister mrInit)) = mrRegister mrInit := by
  refine ⟨?_, by decide, rfl, rfl⟩
  cases s with
  | mk e r =>
    cases r with
    | none => rfl
    | some orig => rfl

/-- Witness for C9 at a concrete registered state. -/
theorem mr_lifecycle_witness :
    mrRevert (mrRevert (mrRegister mrInit)) = mrRevert (mrRegister mrInit)
    ∧ mrRegister (mrRevert (mrRegister mrInit)) = mrRegister mrInit :=
  ⟨(mr_lifecycle (mrRegister mrInit)).1, (mr_lifecycle (mrRegister mrInit)).2.2.2⟩

/-- Claim C10. `registerRTS` operates on the one shared resolver state, and
its cleanup only reverts the module-system registration: aliases,
transformers and cache survive cleanup untouched; a subsequent `registerRTS`
appends its transformers after the existing ones and leaves every alias key
it does not itself set at its previous value — configuration accumulates and
is never removed. -/
theorem rts_config_persists (s : ResolverState) (o o2 : RTSOptions) (k : String)
    (hk : ∀ p ∈ o2.aliasMap.getD [], p.1 ≠ k) :
    (rtsCleanup (registerRTS s o)).aliases = (registerRTS s o).aliases
    ∧ (rtsCleanup (registerRTS s o)).transformers = (registerRTS s o).transformers
    ∧ (rtsCleanup (registerRTS s o)).cache = (registerRTS s o).cache
    ∧ (registerRTS (rtsCleanup (registerRTS s o)) o2).transformers
        = (registerRTS s o).transformers ++ (o2.transformers.getD [])
    ∧ mapGet (registerRTS (rtsCleanup (registerRTS s o)) o2).aliases k
        = mapGet (registerRTS s o).aliases k := by
  refine ⟨rfl, rfl, rfl, ?_, ?_⟩
  · cases ho2a : o2.aliasMap <;> cases ho2t : o2.transformers <;>
      simp [registerRTS, rtsCleanup, ho2a, ho2t, foldl_addTransformer_append]
  · cases ho2a : o2.aliasMap with
    | none => cases ho2t : o2.transformers <;> simp [registerRTS, rtsCleanup, ho2a, ho2t]
    | some m =>
      have hm : ∀ p ∈ m, p.1 ≠ k := by simpa [ho2a] using hk
      cases ho2t : o2.transformers <;>
        simp [registerRTS, rtsCleanup, ho2a, ho2t, setAlias_mapGet_notin _ m k hm]

/-- Witness for C10: a register/cleanup/register cycle on concrete options
keeps the first call's alias `@u` and transformer, appending the second
call's transformer after them. -/
theorem rts_config_persists_witness :
    mapGet (registerRTS (rtsCleanup (registerRTS emptyResolverState
          ⟨some [("@u", AliasTarget.str "./u")], some [tApp1]⟩))
          ⟨some [("@v", AliasTarget.str "./v")], some [tApp2]⟩).aliases "@u"
      = mapGet (registerRTS emptyResolverState
          ⟨some [("@u", AliasTarget.str "./u")], some [tApp1]⟩).aliases "@u"
    ∧ (registerRTS (rtsCleanup (registerRTS emptyResolverState
          ⟨some [("@u", AliasTarget.str "./u")], some [tApp1]⟩))
          ⟨some [("@v", AliasTarget.str "./v")], some [tApp2]⟩).transformers
      = (registerRTS emptyResolverState
          ⟨some [("@u", AliasTarget.str "./u")], some [tApp1]⟩).transformers ++ [tApp2] :=
  ⟨(rts_config_persists emptyResolverState
      ⟨some [("@u", AliasTarget.str "./u")], some [tApp1]⟩
      ⟨some [("@v", AliasTarget.str "./v")], some [tApp2]⟩ "@u"
      (by intro p hp; simp at hp; subst hp; decide)).2.2.2.2,
   (rts_config_persists emptyResolverState
      ⟨some [("@u", AliasTarget.str "./u")], some [tApp1]⟩
      ⟨some [("@v", AliasTarget.str "./v")], some [tApp2]⟩ "@u"
      (by intro p hp; simp at hp; subst hp; decide)).2.2.2.1⟩

end RTS
